import Mathlib

/-!
Verification development for the C3VQG question-generation model:
a shallow embedding of src/models/iq.py (class IQ) and src/evaluate.py.

Tensor entries are modelled as exact rationals (no claim below depends on
rounding within the representable range); the IEEE special values +Inf, -Inf
and NaN, and overflow of finite float32 arithmetic beyond the largest finite
value, which the scaled-noise path of IQ.reparameterize can produce, are
modelled by the symbolic type PFloat.  Stateful randomness is threaded explicitly: Rng is
the state of a pseudo-random generator, and every sampling primitive is a
function of it.  Fallible Python code (missing names, missing attributes,
unavailable CUDA device, unparseable module) is embedded in Except PyErr.
-/

abbrev Vec := List ℚ

abbrev Mat := List Vec

abbrev Rng := Nat

/-- Python-level failures that the embedded code can raise. -/
inductive PyErr where
  | nameError (x : String)
  | attributeError (x : String)
  | indentationError
  | cudaError
  deriving DecidableEq, Repr

/-- Device a tensor lives on. -/
inductive Device where
  | cpu
  | gpu
  deriving DecidableEq, Repr

/-- Single-precision float values, modelled symbolically: a finite value is an
exact rational (rounding inside the representable range is not modelled, but
overflow beyond it is — see pround), plus the special values +Inf, -Inf and
NaN produced and consumed by torch.pow / torch.abs / torch.nan_to_num and by
overflowing arithmetic in IQ.reparameterize. -/
inductive PFloat where
  | fin (q : ℚ)
  | posinf
  | neginf
  | nan
  deriving DecidableEq, Repr

/-- Largest finite float32 value, (2 - 2⁻²³)·2¹²⁷: torch.nan_to_num's default
replacement for +Inf (torch.randn parameters are float32). -/
def floatMax : ℚ := 2 ^ 128 - 2 ^ 104

def PFloat.isFinite : PFloat → Bool
  | .fin _ => true
  | _ => false

/-- Rounding an exact finite result into float32's range: a magnitude beyond
the largest finite value overflows to ±Inf; within the range the exact value
is kept (IEEE rounds to Inf only from half an ulp above floatMax — every
overflow exhibited below occurs at magnitudes far beyond that, where the two
rules agree). -/
def pround (q : ℚ) : PFloat :=
  if floatMax < q then .posinf
  else if q < -floatMax then .neginf
  else .fin q

/-- torch.pow(x, -1) elementwise: 0.0 ** (-1) is +Inf, the reciprocal of an
infinity is 0, NaN propagates. -/
def precip : PFloat → PFloat
  | .fin q => if q = 0 then .posinf else pround q⁻¹
  | .posinf => .fin 0
  | .neginf => .fin 0
  | .nan => .nan

/-- Python abs on a tensor: elementwise absolute value; |±Inf| = +Inf. -/
def pabs : PFloat → PFloat
  | .fin q => .fin |q|
  | .posinf => .posinf
  | .neginf => .posinf
  | .nan => .nan

/-- torch.nan_to_num with default arguments: NaN is replaced by 0, +Inf by the
greatest finite value of the dtype, -Inf by the least. -/
def nanToNum : PFloat → PFloat
  | .fin q => .fin q
  | .posinf => .fin floatMax
  | .neginf => .fin (-floatMax)
  | .nan => .fin 0

/-- IEEE multiplication on the symbolic floats (finite x finite is the exact
product rounded into range, overflowing to ±Inf beyond the largest finite
value; 0 * Inf = NaN; NaN propagates). -/
def pmul : PFloat → PFloat → PFloat
  | .nan, _ => .nan
  | _, .nan => .nan
  | .fin a, .fin b => pround (a * b)
  | .fin a, .posinf => if a = 0 then .nan else if 0 < a then .posinf else .neginf
  | .fin a, .neginf => if a = 0 then .nan else if 0 < a then .neginf else .posinf
  | .posinf, .fin b => if b = 0 then .nan else if 0 < b then .posinf else .neginf
  | .neginf, .fin b => if b = 0 then .nan else if 0 < b then .neginf else .posinf
  | .posinf, .posinf => .posinf
  | .posinf, .neginf => .neginf
  | .neginf, .posinf => .neginf
  | .neginf, .neginf => .posinf

/-- IEEE addition on the symbolic floats (finite + finite is the exact sum
rounded into range, overflowing to ±Inf; Inf + (-Inf) = NaN; NaN propagates). -/
def padd : PFloat → PFloat → PFloat
  | .nan, _ => .nan
  | _, .nan => .nan
  | .fin a, .fin b => pround (a + b)
  | .fin _, .posinf => .posinf
  | .fin _, .neginf => .neginf
  | .posinf, .fin _ => .posinf
  | .neginf, .fin _ => .neginf
  | .posinf, .posinf => .posinf
  | .posinf, .neginf => .nan
  | .neginf, .posinf => .posinf
  | .neginf, .neginf => .neginf

/-- torch.exp lifted to the symbolic floats.  The value of the exponential on a
finite argument is an external library computation, abstracted as the strictly
evaluable parameter texpF, rounded into range; exp(+Inf) = +Inf,
exp(-Inf) = 0, NaN propagates. -/
def pexp (texpF : ℚ → ℚ) : PFloat → PFloat
  | .fin q => pround (texpF q)
  | .posinf => .posinf
  | .neginf => .fin 0
  | .nan => .nan

/-- The epsilon 1e-8 that IQ.reparameterize adds to the latent sample. -/
def epsQ : ℚ := 1 / 100000000

/-- One entry of the sampling-noise scale of IQ.reparameterize
(src/models/iq.py lines 118-119): d = torch.nan_to_num(abs(alpha.pow(-1))). -/
def noiseScaleEntry (a : PFloat) : PFloat := nanToNum (pabs (precip a))

/-- The full noise-scale vector d of IQ.reparameterize. -/
def noiseScale (alpha : List PFloat) : List PFloat := alpha.map noiseScaleEntry

/-- Rational projection of noiseScaleEntry on a finite argument (the entry is
always finite after nan_to_num; the fallback 0 is never reached). -/
def noiseScaleVal (a : ℚ) : ℚ :=
  match noiseScaleEntry (.fin a) with
  | .fin q => q
  | _ => 0

def zip3With (f : α → β → γ → δ) : List α → List β → List γ → List δ
  | a :: as, b :: bs, c :: cs => f a b c :: zip3With f as bs cs
  | _, _, _ => []

/-- IQ.reparameterize (src/models/iq.py lines 116-121) at float level, given
the drawn noise sample eps: std = exp(0.5 * logvar) and the returned latent is
eps * std + mu + 1e-8 elementwise. -/
def reparameterizeF (texpF : ℚ → ℚ) (mu logvar eps : List PFloat) : List PFloat :=
  let std := logvar.map (fun lv => pexp texpF (pmul (PFloat.fin (1 / 2)) lv))
  zip3With (fun e s m => padd (padd (pmul e s) m) (PFloat.fin epsQ)) eps std mu

/-- y = W·x + b, the semantics of nn.Linear on one example. -/
def dotQ (xs ys : Vec) : ℚ := (List.zipWith (fun a b => a * b) xs ys).sum

def linearMap (W : Mat) (b : Vec) (x : Vec) : Vec :=
  List.zipWith (fun row bi => dotQ row x + bi) W b

/-- torch tensor.clamp(min=lo, max=hi) on one entry. -/
def clampQ (lo hi x : ℚ) : ℚ := min (max x lo) hi

def addVec (a b : Vec) : Vec := List.zipWith (fun x y => x + y) a b

def argmaxIdxAux : List ℚ → Nat → Nat → ℚ → Nat
  | [], _, best, _ => best
  | x :: xs, i, best, bv =>
    if bv < x then argmaxIdxAux xs (i + 1) i x else argmaxIdxAux xs (i + 1) best bv

/-- Index of the first maximal entry: tensor.max(dim)[1] on one row. -/
def argmaxIdx (v : Vec) : Nat := argmaxIdxAux v 0 0 (v.headD 0)

/-- Runs a stateful sampling step over a list, threading the generator state
(the explicit-state rendering of torch's and python's global RNGs). -/
def threadMap (f : α → Rng → β × Rng) : List α → Rng → List β × Rng
  | [], r => ([], r)
  | a :: as, r =>
    ((f a r).1 :: (threadMap f as (f a r).2).1, (threadMap f as (f a r).2).2)

/-- The components of IQ whose defining modules are not under src (only their
construction and call sites are), plus the library sampling primitives, as
abstract strictly-evaluable functions.

Modelled from the spec: encoder_cnn is the black-box image feature extractor of
models/encoder_cnn.py (§4.2: a fixed-dim vector per image); category_embedding
and category_encoder are the embedding table and the 2-layer MLP of the
Category Encoder (§4.2); category_attention is the attention/fusion MLP (§4.1)
and gen_decoder the latent-to-decoder bridge MLP of models/mlp.py;
decoder_step is one application of the recurrent cell of models/decoder_rnn.py
on one example (per-layer hidden and cell states in, vocabulary scores and new
states out).  rand01 is python random.random (uniform on [0,1), a generator
that torch.manual_seed does not seed); randn samples a standard normal and
normalSample a zero-mean normal of the given scale from torch's seeded
generator; texp is torch.exp on a finite argument; tokens_to_words is the
vocabulary's token-to-word decoding used by the harness. -/
structure IQExt where
  encoder_cnn : Vec → Vec
  category_embedding : Nat → Vec
  category_encoder : Vec → Vec
  category_attention : Vec → Vec
  gen_decoder : Vec → Vec
  decoder_step : (List Vec × List Vec) → Nat → (Vec × (List Vec × List Vec))
  rand01 : Rng → ℚ × Rng
  randn : Rng → ℚ × Rng
  normalSample : ℚ → Rng → ℚ × Rng
  texp : ℚ → ℚ
  tokens_to_words : List Nat → List String

/-- The learned parameters and configuration of IQ that the embedded methods
read (src/models/iq.py constructor): t_decoder, mu_category_encoder and
logvar_category_encoder are nn.Linear weights, alpha the learned scale
parameter of the scaled-noise mode. -/
structure IQParams where
  maxLen : Nat
  numLayers : Nat
  sosId : Nat
  rnnCellIsLSTM : Bool
  bayes : Bool
  alpha : Vec
  tDecW : Mat
  tDecB : Vec
  muW : Mat
  muB : Vec
  logvarW : Mat
  logvarB : Vec

/-- IQ.reparameterize (src/models/iq.py lines 116-121) at tensor level: the
noise eps is drawn from Normal(0, d) with d = nan_to_num(abs(alpha.pow(-1)))
(see noiseScaleEntry for the float-accurate entry computation), allocated by
torch.zeros_like(mu).cuda() — unconditionally on the CUDA device, which fails
when no accelerator is available; the latent is eps * std + mu + 1e-8 with
std = exp(0.5 * logvar). -/
def reparameterize (ext : IQExt) (cuda : Bool) (alpha : Vec) (mu logvar : Mat)
    (rng : Rng) : Except PyErr (Mat × Rng) :=
  if cuda then
    Except.ok (threadMap (fun row r =>
        threadMap (fun t r2 =>
            ((ext.normalSample t.2 r2).1 * ext.texp (t.1.2 / 2) + t.1.1 + epsQ,
             (ext.normalSample t.2 r2).2))
          ((row.1.zip row.2).zip (alpha.map noiseScaleVal)) r)
      (mu.zip logvar) rng)
  else Except.error PyErr.cudaError

/-- IQ.reparameterize_prev (src/models/iq.py lines 156-159): eps is a standard
normal sample shaped (and placed) like std, the latent is eps * std + mu. -/
def reparameterize_prev (ext : IQExt) (mu logvar : Mat) (rng : Rng) : Mat × Rng :=
  threadMap (fun row r =>
      threadMap (fun t r2 =>
          ((ext.randn r2).1 * ext.texp (t.2 / 2) + t.1, (ext.randn r2).2))
        (row.1.zip row.2) r)
    (mu.zip logvar) rng

/-- IQ.encode_into_t (src/models/iq.py lines 243-266): concatenate image and
category features, fuse, project to mu and logvar, clamp mu to [-2, 2] and
logvar to [-20, 20], then sample by reparameterize (bayes) or
reparameterize_prev. -/
def encode_into_t (p : IQParams) (ext : IQExt) (cuda : Bool)
    (image_features category_features : Mat) (trng : Rng) :
    Except PyErr (Mat × Mat × Mat × Rng) :=
  let together := List.zipWith (fun a b => a ++ b) image_features category_features
  let attended := together.map ext.category_attention
  let mus := (attended.map (linearMap p.muW p.muB)).map (List.map (clampQ (-2) 2))
  let logvars :=
    (attended.map (linearMap p.logvarW p.logvarB)).map (List.map (clampQ (-20) 20))
  if p.bayes then
    match reparameterize ext cuda p.alpha mus logvars trng with
    | Except.error e => Except.error e
    | Except.ok zr => Except.ok (mus, logvars, zr.1, zr.2)
  else
    let zr := reparameterize_prev ext mus logvars trng
    Except.ok (mus, logvars, zr.1, zr.2)

/-- The decoder's initial recurrent state: a plain hidden state, or a
(hidden, cell) pair for an LSTM cell. -/
inductive DecInit where
  | single (h : List Mat)
  | lstm (h c : List Mat)

def hiddenLayers : DecInit → List Mat
  | .single h => h
  | .lstm h _ => h

def cellLayers : DecInit → Option (List Mat)
  | .single _ => none
  | .lstm _ c => some c

def cellOrHidden : DecInit → List Mat
  | .single h => h
  | .lstm _ c => c

/-- The initial decoder state built by IQ.decode_questions (src/models/iq.py
lines 288-295): the per-example bridge vector is viewed as (1, batch, 2H) and
expanded to (num_layers, batch, 2H) — the same matrix replicated across all
layers — and for an LSTM cell the pair (hiddens, hiddens) is passed. -/
def decode_init (p : IQParams) (hiddens : Mat) : DecInit :=
  if p.rnnCellIsLSTM then
    DecInit.lstm (List.replicate p.numLayers hiddens) (List.replicate p.numLayers hiddens)
  else
    DecInit.single (List.replicate p.numLayers hiddens)

abbrev ExState := List Vec × List Vec

/-- Per-example slice of the initial decoder state (example i's row of every
layer of the hidden and cell stacks). -/
def perExampleInit (init : DecInit) (i : Nat) : ExState :=
  ((hiddenLayers init).map (fun L => L.getD i []),
   (cellOrHidden init).map (fun L => L.getD i []))

def questionFor : Option (List (List Nat)) → Nat → List Nat
  | none, _ => []
  | some qs, i => qs.getD i []

/-- Modelled from the spec: one example's pass through DecoderRNN
(models/decoder_rnn.py is not under src).  Per §4.4 the decoder emits a
vocabulary-score row at every timestep up to the configured maximum length
(§8: the output sequence length equals that maximum); at each step, with
probability teacher_forcing_ratio (drawn from python's random.random, which
torch.manual_seed does not seed) the ground-truth previous token is fed,
otherwise the argmax of the model's own previous scores. -/
def decodeExample (ext : IQExt) (tfr : ℚ) :
    Nat → ExState → Nat → List Nat → Rng → List Vec × Rng
  | 0, _, _, _, rng => ([], rng)
  | Nat.succ n, st, tok, gts, rng =>
    let sc := (ext.decoder_step st tok).1
    let st2 := (ext.decoder_step st tok).2
    let r := (ext.rand01 rng).1
    let rng1 := (ext.rand01 rng).2
    let next := if r < tfr then gts.headD (argmaxIdx sc) else argmaxIdx sc
    let rest := decodeExample ext tfr n st2 next gts.tail rng1
    (sc :: rest.1, rest.2)

/-- Modelled from the spec: DecoderRNN on a batch — every example starts from
the start-of-sequence token and its slice of the initial state, and the
per-timestep outputs are the batch's score matrices (max_len of them). -/
def decoderRNN (ext : IQExt) (p : IQParams) (init : DecInit) (batch : Nat)
    (questions : Option (List (List Nat))) (tfr : ℚ) (rng : Rng) :
    List Mat × Rng :=
  let run := threadMap (fun i r =>
      decodeExample ext tfr p.maxLen (perExampleInit init i) p.sosId
        (questionFor questions i) r)
    (List.range batch) rng
  ((List.range p.maxLen).map (fun t => run.1.map (fun s => s.getD t [])), run.2)

/-- IQ.parse_outputs_to_tokens (src/models/iq.py lines 175-190): argmax each
timestep's (batch, vocab) scores over the vocabulary dimension, stack the
max_len token rows into a (max_len, batch) tensor (the list of rows itself),
and transpose dimensions 0 and 1 (index swap, with the row count of the
transposed tensor read off the stacked tensor's first row). -/
def parse_outputs_to_tokens (outputs : List Mat) : List (List Nat) :=
  let stepTokens := outputs.map (fun o => o.map argmaxIdx)
  (List.range (stepTokens.headD []).length).map
    (fun j => stepTokens.map (fun row => row.getD j 0))

/-- IQ.decode_questions (src/models/iq.py lines 268-304): bridge the latent
batch ts through t_decoder, add the image features and pass through
gen_decoder (or use the bridged vectors alone when image features are absent),
build the replicated initial decoder state, run the decoder and parse its
outputs to tokens.  Returns (decoder outputs, token matrix, python-RNG state). -/
def decode_questions (p : IQParams) (ext : IQExt) (imageFeatures : Option Mat)
    (ts : Mat) (questions : Option (List (List Nat))) (tfr : ℚ) (prng : Rng) :
    List Mat × List (List Nat) × Rng :=
  let t_hiddens := ts.map (linearMap p.tDecW p.tDecB)
  let hiddens :=
    match imageFeatures with
    | none => t_hiddens
    | some imf => (List.zipWith addVec imf t_hiddens).map ext.gen_decoder
  let run := decoderRNN ext p (decode_init p hiddens) ts.length questions tfr prng
  (run.1, parse_outputs_to_tokens run.1, run.2)

/-- IQ.encode_from_category (src/models/iq.py lines 359-371): encode images and
categories, then encode into t space; returns the image features, the latent
batch and the advanced torch-RNG state. -/
def encode_from_category (p : IQParams) (ext : IQExt) (cuda : Bool)
    (images : List Vec) (categories : List Nat) (trng : Rng) :
    Except PyErr (Mat × Mat × Rng) :=
  let image_features := images.map ext.encoder_cnn
  let category_hiddens :=
    categories.map (fun c => ext.category_encoder (ext.category_embedding c))
  match encode_into_t p ext cuda image_features category_hiddens trng with
  | Except.error e => Except.error e
  | Except.ok r => Except.ok (image_features, r.2.2.1, r.2.2.2)

/-- IQ.predict_from_category (src/models/iq.py lines 373-393): encode from
category then decode questions; returns the token matrix (batch x max_len)
plus the advanced torch- and python-RNG states. -/
def predict_from_category (p : IQParams) (ext : IQExt) (cuda : Bool)
    (images : List Vec) (categories : List Nat)
    (questions : Option (List (List Nat))) (tfr : ℚ) (trng prng : Rng) :
    Except PyErr (List (List Nat) × Rng × Rng) :=
  match encode_from_category p ext cuda images categories trng with
  | Except.error e => Except.error e
  | Except.ok r =>
    let dq := decode_questions p ext (some r.1) r.2.1 questions tfr prng
    Except.ok (dq.2.1, r.2.2, dq.2.2)

/-- The local variables of Mat type bound in IQ.forward's scope before line 329
(src/models/iq.py lines 306-328): only image_features is assigned; neither mus
nor logvars is ever defined in that scope. -/
def forwardLocalMats (image_features : Mat) : List (String × Mat) :=
  [("image_features", image_features)]

/-- IQ.forward (src/models/iq.py lines 306-338): encodes the images, then
line 330 evaluates reparameterize(mus, logvars) — the names mus and logvars
are looked up in the local scope (forwardLocalMats plus the non-Mat
parameters) and are unbound, so the call raises NameError before any decoding;
the remaining body (sampling and decode_questions) is embedded for the
counterfactual case in which the lookups succeed. -/
def forward (p : IQParams) (ext : IQExt) (cuda : Bool) (images : List Vec)
    (_answers : List (List Nat)) (_categories : List Nat)
    (questions : Option (List (List Nat))) (tfr : ℚ) (trng prng : Rng) :
    Except PyErr (List Mat × List (List Nat)) :=
  let image_features := images.map ext.encoder_cnn
  match (forwardLocalMats image_features).lookup "mus" with
  | none => Except.error (PyErr.nameError "mus")
  | some mus =>
    match (forwardLocalMats image_features).lookup "logvars" with
    | none => Except.error (PyErr.nameError "logvars")
    | some logvars =>
      match (if p.bayes then reparameterize ext cuda p.alpha mus logvars trng
             else Except.ok (reparameterize_prev ext mus logvars trng)) with
      | Except.error e => Except.error e
      | Except.ok zr =>
        let dq := decode_questions p ext (some image_features) zr.1 questions tfr prng
        Except.ok (dq.1, dq.2.1)

/-- The methods defined on class IQ (src/models/iq.py); predict_from_answer is
not among them. -/
def iqMethodNames : List String :=
  ["reparameterize", "flatten_parameters", "generator_parameters",
   "cycle_params", "info_parameters", "reparameterize_prev", "modify_hidden",
   "parse_outputs_to_tokens", "encode_images", "encode_categories",
   "encode_questions_discriminator", "encode_questions", "encode_into_t",
   "decode_questions", "forward", "reconstruct_inputs", "encode_from_category",
   "predict_from_category"]

inductive GenMethod where
  | predictFromCategory

/-- The batch-prediction entry points defined on class IQ that the evaluation
harness's attribute lookups can dispatch to (src/models/iq.py): only
predict_from_category exists; there is no predict_from_answer. -/
def iqGenMethodTable : List (String × GenMethod) :=
  [("predict_from_category", GenMethod.predictFromCategory)]

/-- One batch yielded by the data loader. -/
structure Batch where
  images : List Vec
  questions : List (List Nat)
  answers : List (List Nat)
  categories : List Nat

def runGenMethod (p : IQParams) (ext : IQExt) (cuda : Bool) (m : GenMethod)
    (b : Batch) (trng prng : Rng) : Except PyErr (List (List Nat) × Rng × Rng) :=
  match m with
  | GenMethod.predictFromCategory =>
    predict_from_category p ext cuda b.images b.categories none 0 trng prng

/-- The per-batch prediction of evaluate (src/evaluate.py lines 49-53): in
from-answer mode the harness looks up predict_from_answer on the model, in
from-category mode predict_from_category; a missing attribute raises
AttributeError. -/
def evalBatch (p : IQParams) (ext : IQExt) (cuda : Bool) (fromAnswer : Bool)
    (b : Batch) (trng prng : Rng) : Except PyErr (List (List Nat) × Rng × Rng) :=
  match iqGenMethodTable.lookup
      (if fromAnswer then "predict_from_answer" else "predict_from_category") with
  | none => Except.error (PyErr.attributeError
      (if fromAnswer then "predict_from_answer" else "predict_from_category"))
  | some m => runGenMethod p ext cuda m b trng prng

/-- The device the harness puts each batch's tensors on (src/evaluate.py lines
43-46): moved to the accelerator only when torch.cuda.is_available(). -/
def harnessBatchDevice (cuda : Bool) : Device :=
  if cuda then Device.gpu else Device.cpu

/-- What a full evaluation pass yields, together with the mode bits that were
in force during its per-batch computations and the parameters it ends with. -/
structure EvalResult where
  preds : List (List String)
  gts : List (List String)
  trainingDuring : Bool
  gradDuring : Bool
  paramsAfter : IQParams

def evalLoop (p : IQParams) (ext : IQExt) (cuda : Bool) (fromAnswer : Bool) :
    List Batch → Rng → Rng → List (List String) × List (List String) →
    Except PyErr (List (List String) × List (List String))
  | [], _, _, acc => Except.ok acc
  | b :: bs, trng, prng, acc =>
    match evalBatch p ext cuda fromAnswer b trng prng with
    | Except.error e => Except.error e
    | Except.ok out =>
      evalLoop p ext cuda fromAnswer bs out.2.1 out.2.2
        (acc.1 ++ out.1.map ext.tokens_to_words,
         acc.2 ++ b.questions.map ext.tokens_to_words)

/-- evaluate (src/evaluate.py lines 22-70): vqg.eval() turns the module's
training flag off (disabling dropout) but no torch.no_grad() context is
entered, so the global autograd mode stays whatever the caller left it
(gradIn; torch's default is tracking enabled); the batches are then iterated
in order, predictions and references decoded to words and accumulated, and
the parameters are never written. -/
def evaluateHarness (p : IQParams) (ext : IQExt) (cuda gradIn fromAnswer : Bool)
    (batches : List Batch) (trng prng : Rng) : Except PyErr EvalResult :=
  match evalLoop p ext cuda fromAnswer batches trng prng ([], []) with
  | Except.error e => Except.error e
  | Except.ok acc =>
    Except.ok { preds := acc.1, gts := acc.2, trainingDuring := false,
                gradDuring := gradIn, paramsAfter := p }

/-- Leading-space counts of the consecutive statements of the
if __name__ == '__main__' suite of src/evaluate.py (lines 160-229, comment
lines and continuation lines inside parentheses excluded): 28 statements
indented 4 (lines 160-217), then the --dataset parser.add_argument statement
at line 220 indented 3, then 5 statements indented 4 (lines 224-229). -/
def mainBlockIndents : List Nat :=
  List.replicate 28 4 ++ 3 :: List.replicate 5 4

/-- Python's indentation rule for this single-level suite: every statement of
the suite must sit at the column the first statement established; a statement
at a smaller, unmatched indent is an IndentationError at tokenize time. -/
def suiteIndentsConsistent (l : List Nat) : Bool :=
  l.all (fun i => i == l.headD i)

inductive PyModule where
  | parsed

/-- Parsing src/evaluate.py as a program: the module is tokenized and compiled
before any statement runs, so an inconsistent suite indentation aborts the
script before imports, argument parsing, model loading or evaluation. -/
def parseEvaluateModule : Except PyErr PyModule :=
  if suiteIndentsConsistent mainBlockIndents then Except.ok PyModule.parsed
  else Except.error PyErr.indentationError

/-- Running python evaluate.py with some argv: parse first, then (only on
success) execute the module. -/
def runEvaluateScript (_argv : List String) : Except PyErr PyModule :=
  match parseEvaluateModule with
  | Except.error e => Except.error e
  | Except.ok m => Except.ok m

/-- Concrete fixture: a trivial instantiation of the abstract components, used
by the witnesses. -/
def extC : IQExt :=
  { encoder_cnn := fun _ => [1]
    category_embedding := fun _ => [1]
    category_encoder := id
    category_attention := id
    gen_decoder := id
    decoder_step := fun st _ => ([1], st)
    rand01 := fun s => (0, s)
    randn := fun s => (0, s)
    normalSample := fun _ s => (0, s)
    texp := fun _ => 1
    tokens_to_words := fun ts => ts.map (fun _ => "w") }

/-- Concrete fixture: a minimal parameter set (standard-normal mode). -/
def pC : IQParams :=
  { maxLen := 1, numLayers := 1, sosId := 0, rnnCellIsLSTM := false,
    bayes := false, alpha := [1], tDecW := [[1]], tDecB := [0],
    muW := [[1, 0]], muB := [0], logvarW := [[0, 1]], logvarB := [0] }

/-- Concrete fixture: the same parameters in scaled-noise (bayes) mode. -/
def pB : IQParams := { pC with bayes := true }

/-- Concrete fixture: the same parameters with an LSTM decoder cell. -/
def pL : IQParams := { pC with rnnCellIsLSTM := true }

/-- Concrete fixture: a one-example batch. -/
def bC : Batch :=
  { images := [[1]], questions := [[7]], answers := [[1]], categories := [0] }

theorem threadMap_fst_length (f : α → Rng → β × Rng) :
    ∀ (l : List α) (r : Rng), ((threadMap f l r).1).length = l.length := by
  intro l
  induction l with
  | nil => intro r; rfl
  | cons a as ih => intro r; simp [threadMap, ih]

theorem threadMap_fst_congr (f : α → Rng → β × Rng)
    (hf : ∀ a r1 r2, (f a r1).1 = (f a r2).1) :
    ∀ (l : List α) (r1 r2 : Rng), (threadMap f l r1).1 = (threadMap f l r2).1 := by
  intro l
  induction l with
  | nil => intro r1 r2; rfl
  | cons a as ih =>
    intro r1 r2
    simp only [threadMap]
    exact List.cons_eq_cons.2 ⟨hf a r1 r2, ih (f a r1).2 (f a r2).2⟩

theorem decodeExample_fst_length (ext : IQExt) (tfr : ℚ) :
    ∀ (n : Nat) (st : ExState) (tok : Nat) (gts : List Nat) (rng : Rng),
      ((decodeExample ext tfr n st tok gts rng).1).length = n := by
  intro n
  induction n with
  | zero => intro st tok gts rng; rfl
  | succ m ih => intro st tok gts rng; simp [decodeExample, ih]

theorem decodeExample_fst_rng_irrel (ext : IQExt)
    (h01 : ∀ s, 0 ≤ (ext.rand01 s).1) :
    ∀ (n : Nat) (st : ExState) (tok : Nat) (gts : List Nat) (r1 r2 : Rng),
      (decodeExample ext 0 n st tok gts r1).1 =
        (decodeExample ext 0 n st tok gts r2).1 := by
  intro n
  induction n with
  | zero => intro st tok gts r1 r2; rfl
  | succ m ih =>
    intro st tok gts r1 r2
    simp only [decodeExample]
    have e1 : ¬ (ext.rand01 r1).1 < (0 : ℚ) := not_lt.2 (h01 r1)
    have e2 : ¬ (ext.rand01 r2).1 < (0 : ℚ) := not_lt.2 (h01 r2)
    rw [if_neg e1, if_neg e2]
    exact List.cons_eq_cons.2 ⟨rfl, ih _ _ _ _ _⟩

theorem decoderRNN_shape (ext : IQExt) (p : IQParams) (init : DecInit)
    (batch : Nat) (questions : Option (List (List Nat))) (tfr : ℚ) (rng : Rng) :
    ((decoderRNN ext p init batch questions tfr rng).1).length = p.maxLen ∧
      ∀ o ∈ (decoderRNN ext p init batch questions tfr rng).1, o.length = batch := by
  constructor
  · simp [decoderRNN]
  · intro o ho
    simp only [decoderRNN, List.mem_map] at ho
    rcases ho with ⟨t, _, rfl⟩
    simp [threadMap_fst_length]

theorem parse_outputs_to_tokens_shape (outputs : List Mat) (m batch : Nat)
    (hm : outputs.length = m) (hpos : 0 < m)
    (hrow : ∀ o ∈ outputs, o.length = batch) :
    (parse_outputs_to_tokens outputs).length = batch ∧
      ∀ row ∈ parse_outputs_to_tokens outputs, row.length = m := by
  cases outputs with
  | nil => simp at hm; omega
  | cons o os =>
    constructor
    · have hb : (o.map argmaxIdx).length = batch := by
        simp [hrow o (by simp)]
      simp [parse_outputs_to_tokens, hb]
    · intro row hrowm
      simp only [parse_outputs_to_tokens, List.mem_map] at hrowm
      rcases hrowm with ⟨j, _, rfl⟩
      simpa using hm

theorem decode_questions_tokens_shape (p : IQParams) (ext : IQExt)
    (imageFeatures : Option Mat) (ts : Mat) (questions : Option (List (List Nat)))
    (tfr : ℚ) (prng : Rng) (hpos : 0 < p.maxLen) :
    ((decode_questions p ext imageFeatures ts questions tfr prng).2.1).length = ts.length ∧
      ∀ row ∈ (decode_questions p ext imageFeatures ts questions tfr prng).2.1,
        row.length = p.maxLen := by
  have hd := decoderRNN_shape ext p
    (decode_init p (match imageFeatures with
      | none => ts.map (linearMap p.tDecW p.tDecB)
      | some imf => (List.zipWith addVec imf (ts.map (linearMap p.tDecW p.tDecB))).map
          ext.gen_decoder))
    ts.length questions tfr prng
  exact parse_outputs_to_tokens_shape _ p.maxLen ts.length hd.1 hpos hd.2

theorem clampQ_bounds (lo hi x : ℚ) (h : lo ≤ hi) :
    lo ≤ clampQ lo hi x ∧ clampQ lo hi x ≤ hi :=
  ⟨le_min (le_max_right x lo) h, min_le_right _ _⟩

theorem encode_into_t_ok (p : IQParams) (ext : IQExt) (cuda : Bool)
    (imgF catF : Mat) (trng : Rng) (mus logvars zs : Mat) (r' : Rng)
    (h : encode_into_t p ext cuda imgF catF trng = Except.ok (mus, logvars, zs, r')) :
    mus = (((List.zipWith (fun a b => a ++ b) imgF catF).map
        ext.category_attention).map (linearMap p.muW p.muB)).map
        (List.map (clampQ (-2) 2)) ∧
    logvars = (((List.zipWith (fun a b => a ++ b) imgF catF).map
        ext.category_attention).map (linearMap p.logvarW p.logvarB)).map
        (List.map (clampQ (-20) 20)) ∧
    (p.bayes = true →
      reparameterize ext cuda p.alpha mus logvars trng = Except.ok (zs, r')) ∧
    (p.bayes = false →
      reparameterize_prev ext mus logvars trng = (zs, r')) := by
  cases hb : p.bayes with
  | false =>
    simp only [encode_into_t, hb, Bool.false_eq_true, if_false] at h
    simp only [Except.ok.injEq, Prod.mk.injEq] at h
    obtain ⟨h1, h2, h3, h4⟩ := h
    subst h1; subst h2
    refine ⟨rfl, rfl, fun hc => by simp [hb] at hc, fun _ => ?_⟩
    rw [← h3, ← h4]
  | true =>
    simp only [encode_into_t, hb, if_true] at h
    cases hr : reparameterize ext cuda p.alpha
        ((((List.zipWith (fun a b => a ++ b) imgF catF).map
          ext.category_attention).map (linearMap p.muW p.muB)).map
          (List.map (clampQ (-2) 2)))
        ((((List.zipWith (fun a b => a ++ b) imgF catF).map
          ext.category_attention).map (linearMap p.logvarW p.logvarB)).map
          (List.map (clampQ (-20) 20))) trng with
    | error e => rw [hr] at h; exact absurd h (by simp)
    | ok zr =>
      rw [hr] at h
      simp only [Except.ok.injEq, Prod.mk.injEq] at h
      obtain ⟨h1, h2, h3, h4⟩ := h
      subst h1; subst h2
      refine ⟨rfl, rfl, fun _ => ?_, fun hc => by simp [hb] at hc⟩
      rw [hr, ← h3, ← h4]

theorem reparameterize_ok_elim (ext : IQExt) (cuda : Bool) (alpha : Vec)
    (mu logvar : Mat) (rng : Rng) (zs : Mat) (r' : Rng)
    (h : reparameterize ext cuda alpha mu logvar rng = Except.ok (zs, r')) :
    zs.length = (mu.zip logvar).length := by
  cases hc : cuda with
  | false => simp [reparameterize, hc] at h
  | true =>
    simp only [reparameterize, hc, if_true, Except.ok.injEq] at h
    have h1 := congrArg Prod.fst h
    simp only at h1
    rw [← h1]
    exact threadMap_fst_length _ _ _

theorem encode_into_t_zs_length (p : IQParams) (ext : IQExt) (cuda : Bool)
    (imgF catF : Mat) (trng : Rng) (mus logvars zs : Mat) (r' : Rng)
    (h : encode_into_t p ext cuda imgF catF trng = Except.ok (mus, logvars, zs, r')) :
    zs.length = min imgF.length catF.length := by
  obtain ⟨hm, hl, hbt, hbf⟩ := encode_into_t_ok p ext cuda imgF catF trng mus logvars zs r' h
  have hmlen : mus.length = min imgF.length catF.length := by
    rw [hm]; simp
  have hllen : logvars.length = min imgF.length catF.length := by
    rw [hl]; simp
  cases hb : p.bayes with
  | true =>
    have := reparameterize_ok_elim ext cuda p.alpha mus logvars trng zs r' (hbt hb)
    rw [this]
    simp [List.length_zip, hmlen, hllen]
  | false =>
    have hz : zs = (reparameterize_prev ext mus logvars trng).1 := by
      rw [hbf hb]
    rw [hz, reparameterize_prev, threadMap_fst_length]
    simp [List.length_zip, hmlen, hllen]

theorem encode_into_t_isOk (p : IQParams) (ext : IQExt) (cuda : Bool)
    (imgF catF : Mat) (trng : Rng) (hok : p.bayes = false ∨ cuda = true) :
    ∃ r, encode_into_t p ext cuda imgF catF trng = Except.ok r := by
  cases he : encode_into_t p ext cuda imgF catF trng with
  | ok r => exact ⟨r, rfl⟩
  | error e =>
    cases hb : p.bayes with
    | false =>
      unfold encode_into_t at he
      rw [hb] at he
      simp at he
    | true =>
      have hc : cuda = true := by
        rcases hok with h | h
        · rw [hb] at h; exact absurd h (by simp)
        · exact h
      unfold encode_into_t reparameterize at he
      rw [hb, hc] at he
      simp at he

theorem encode_from_category_isOk (p : IQParams) (ext : IQExt) (cuda : Bool)
    (images : List Vec) (categories : List Nat) (trng : Rng)
    (hok : p.bayes = false ∨ cuda = true) :
    ∃ r, encode_from_category p ext cuda images categories trng = Except.ok r := by
  obtain ⟨r, hr⟩ := encode_into_t_isOk p ext cuda (images.map ext.encoder_cnn)
    (categories.map (fun c => ext.category_encoder (ext.category_embedding c))) trng hok
  cases he : encode_from_category p ext cuda images categories trng with
  | ok s => exact ⟨s, rfl⟩
  | error e =>
    unfold encode_from_category at he
    simp [hr] at he

theorem predict_from_category_isOk (p : IQParams) (ext : IQExt) (cuda : Bool)
    (images : List Vec) (categories : List Nat)
    (questions : Option (List (List Nat))) (tfr : ℚ) (trng prng : Rng)
    (hok : p.bayes = false ∨ cuda = true) :
    ∃ out, predict_from_category p ext cuda images categories questions tfr trng prng
      = Except.ok out := by
  obtain ⟨r, hr⟩ := encode_from_category_isOk p ext cuda images categories trng hok
  cases he : predict_from_category p ext cuda images categories questions tfr trng prng with
  | ok out => exact ⟨out, rfl⟩
  | error e =>
    unfold predict_from_category at he
    simp [hr] at he

/-- C2, counterexample: in scaled-noise (bayes) mode, for the learned scale
vector alpha = [0], the noise-scale entry d = nan_to_num(abs(alpha.pow(-1)))
is the largest finite float32 value, not zero as the claim states: 0 ** (-1)
is +Inf and torch.nan_to_num's default replaces +Inf by the dtype's greatest
finite value (only NaN is replaced by zero). -/
theorem noiseScale_zero_counterexample :
    noiseScale [PFloat.fin 0] = [PFloat.fin floatMax] ∧
    PFloat.fin floatMax ≠ PFloat.fin 0 := by
  constructor
  · rfl
  · intro h
    simp only [PFloat.fin.injEq, floatMax] at h
    norm_num at h

theorem pround_fin_of_abs_le {q : ℚ} (h : |q| ≤ floatMax) : pround q = PFloat.fin q := by
  obtain ⟨h1, h2⟩ := abs_le.mp h
  unfold pround
  rw [if_neg (not_lt.2 h2), if_neg (not_lt.2 h1)]

/-- C2, amended: for a zero entry of the learned scale parameter alpha, the
corresponding noise-scale entry is the largest finite float32 value — finite,
neither NaN nor Inf, but not zero — and for clamped (mu, logvar) and a drawn
noise value, the latent entry z = mu + noise * std + 1e-8 is finite exactly
while the noise, its product with the standard deviation and the subsequent
sums stay inside the float32 range (third conjunct); this is not
unconditional: with the float32-max noise scale, a draw of float32-max
magnitude already overflows at std = 2 (attained inside the clamp range),
making the latent entry +Inf (fourth and fifth conjuncts). -/
theorem reparameterize_scaled_noise_amended (texpF : ℚ → ℚ) (m lv e : ℚ)
    (_hm : -2 ≤ m ∧ m ≤ 2) (hlv : -20 ≤ lv ∧ lv ≤ 20)
    (hstd : |texpF (1 / 2 * lv)| ≤ floatMax)
    (h1 : |e * texpF (1 / 2 * lv)| ≤ floatMax)
    (h2 : |e * texpF (1 / 2 * lv) + m| ≤ floatMax)
    (h3 : |e * texpF (1 / 2 * lv) + m + epsQ| ≤ floatMax) :
    noiseScaleEntry (PFloat.fin 0) = PFloat.fin floatMax ∧
    (noiseScaleEntry (PFloat.fin 0)).isFinite = true ∧
    reparameterizeF texpF [PFloat.fin m] [PFloat.fin lv] [PFloat.fin e] =
      [PFloat.fin (e * texpF (1 / 2 * lv) + m + epsQ)] ∧
    pmul (PFloat.fin floatMax) (PFloat.fin 2) = PFloat.posinf ∧
    reparameterizeF (fun _ => 2) [PFloat.fin 0] [PFloat.fin 2] [PFloat.fin floatMax] =
      [PFloat.posinf] := by
  have habs : |lv| ≤ 20 := abs_le.mpr ⟨hlv.1, hlv.2⟩
  have hhalf : |1 / 2 * lv| ≤ floatMax := by
    rw [abs_mul]
    have h10 : |(1 : ℚ) / 2| * |lv| ≤ 10 := by
      rw [abs_of_pos (by norm_num : (0 : ℚ) < 1 / 2)]
      linarith
    calc |(1 : ℚ) / 2| * |lv| ≤ 10 := h10
      _ ≤ floatMax := by norm_num [floatMax]
  have hover : pround (floatMax * 2) = PFloat.posinf := by
    unfold pround
    rw [if_pos (by norm_num [floatMax])]
  refine ⟨rfl, rfl, ?_, ?_, ?_⟩
  · simp only [reparameterizeF, List.map, zip3With, pexp, pmul, padd,
      pround_fin_of_abs_le hhalf, pround_fin_of_abs_le hstd,
      pround_fin_of_abs_le h1, pround_fin_of_abs_le h2, pround_fin_of_abs_le h3]
  · simp only [pmul, hover]
  · have hone : pround ((1 : ℚ) / 2 * 2) = PFloat.fin 1 := by
      norm_num [pround, floatMax]
    have htwo : pround ((2 : ℚ)) = PFloat.fin 2 := by
      norm_num [pround, floatMax]
    simp only [reparameterizeF, List.map, zip3With, pexp, pmul, padd, hone,
      htwo, hover]

theorem reparameterize_scaled_noise_amended_witness :
    noiseScaleEntry (PFloat.fin 0) = PFloat.fin floatMax ∧
    (noiseScaleEntry (PFloat.fin 0)).isFinite = true ∧
    reparameterizeF (fun _ => 1) [PFloat.fin 0] [PFloat.fin 0] [PFloat.fin 1] =
      [PFloat.fin (1 * 1 + 0 + epsQ)] ∧
    pmul (PFloat.fin floatMax) (PFloat.fin 2) = PFloat.posinf ∧
    reparameterizeF (fun _ => 2) [PFloat.fin 0] [PFloat.fin 2] [PFloat.fin floatMax] =
      [PFloat.posinf] :=
  reparameterize_scaled_noise_amended (fun _ => 1) 0 0 1 (by norm_num)
    (by norm_num) (by norm_num [floatMax]) (by norm_num [floatMax])
    (by norm_num [floatMax]) (by norm_num [floatMax, epsQ, abs_le])

/-- C4: whatever values the mu and logvar linear projections produce, the mus
returned by encode_into_t lie elementwise in [-2, 2] and the logvars in
[-20, 20], and the sampling step (reparameterize in bayes mode,
reparameterize_prev otherwise) receives exactly the returned clamped tensors. -/
theorem encode_into_t_clamped (p : IQParams) (ext : IQExt) (cuda : Bool)
    (imgF catF : Mat) (trng : Rng) (mus logvars zs : Mat) (r' : Rng)
    (h : encode_into_t p ext cuda imgF catF trng = Except.ok (mus, logvars, zs, r')) :
    (∀ row ∈ mus, ∀ x ∈ row, -2 ≤ x ∧ x ≤ 2) ∧
    (∀ row ∈ logvars, ∀ x ∈ row, -20 ≤ x ∧ x ≤ 20) ∧
    (p.bayes = true →
      reparameterize ext cuda p.alpha mus logvars trng = Except.ok (zs, r')) ∧
    (p.bayes = false →
      reparameterize_prev ext mus logvars trng = (zs, r')) := by
  obtain ⟨hm, hl, hbt, hbf⟩ := encode_into_t_ok p ext cuda imgF catF trng mus logvars zs r' h
  refine ⟨?_, ?_, hbt, hbf⟩
  · intro row hrow x hx
    rw [hm] at hrow
    rcases List.mem_map.1 hrow with ⟨v, _, rfl⟩
    rcases List.mem_map.1 hx with ⟨y, _, rfl⟩
    exact clampQ_bounds (-2) 2 y (by norm_num)
  · intro row hrow x hx
    rw [hl] at hrow
    rcases List.mem_map.1 hrow with ⟨v, _, rfl⟩
    rcases List.mem_map.1 hx with ⟨y, _, rfl⟩
    exact clampQ_bounds (-20) 20 y (by norm_num)

theorem encode_into_t_clamped_witness :
    (∀ row ∈ ([[2]] : Mat), ∀ x ∈ row, -2 ≤ x ∧ x ≤ 2) ∧
    (∀ row ∈ ([[-20]] : Mat), ∀ x ∈ row, -20 ≤ x ∧ x ≤ 20) ∧
    (pC.bayes = true →
      reparameterize extC false pC.alpha [[2]] [[-20]] 0 = Except.ok ([[2]], 0)) ∧
    (pC.bayes = false →
      reparameterize_prev extC [[2]] [[-20]] 0 = ([[2]], 0)) :=
  encode_into_t_clamped pC extC false [[5]] [[-30]] 0 [[2]] [[-20]] [[2]] 0 (by
    simp only [encode_into_t, pC, extC, linearMap, dotQ, clampQ, reparameterize_prev,
      threadMap, List.zipWith, List.map, List.zip, List.sum_cons, List.sum_nil, id]
    norm_num)

/-- C7: the initial decoder state built by decode_questions (via decode_init)
is the same bridge matrix replicated across all num_layers decoder layers, and
when the decoder cell is an LSTM the initial cell state equals the initial
hidden state. -/
theorem decode_init_uniform (p : IQParams) (hiddens : Mat) :
    (∀ L ∈ hiddenLayers (decode_init p hiddens), L = hiddens) ∧
    (p.rnnCellIsLSTM = true →
      cellLayers (decode_init p hiddens) =
        some (hiddenLayers (decode_init p hiddens))) := by
  have hmem : ∀ L ∈ List.replicate p.numLayers hiddens, L = hiddens :=
    fun _ hL => List.eq_of_mem_replicate hL
  cases hl : p.rnnCellIsLSTM with
  | true =>
    refine ⟨?_, fun _ => ?_⟩
    · simp only [decode_init, hl, if_true, hiddenLayers]
      exact hmem
    · simp only [decode_init, hl, if_true, cellLayers, hiddenLayers]
  | false =>
    refine ⟨?_, fun hc => by simp at hc⟩
    simp only [decode_init, hl, Bool.false_eq_true, if_false, hiddenLayers]
    exact hmem

theorem decode_init_uniform_witness :
    cellLayers (decode_init pL [[1]]) = some (hiddenLayers (decode_init pL [[1]])) :=
  (decode_init_uniform pL [[1]]).2 rfl

/-- C9: running evaluate.py as a script fails for every argv with an
IndentationError raised while parsing the module (the --dataset add_argument
statement at line 220 is indented 3 spaces inside a 4-space suite), before any
import, model loading or evaluation work executes. -/
theorem evaluate_script_indentation_error (argv : List String) :
    runEvaluateScript argv = Except.error PyErr.indentationError := by
  rfl

/-- C10: with bayes=True and no available accelerator, every variational
encode (encode_into_t, hence encode_from_category and predict_from_category)
fails with the CUDA allocation error raised by
torch.zeros_like(mu).cuda() inside reparameterize, while the evaluation
harness itself moves batch tensors to the accelerator only when one is
available (it keeps them on the CPU otherwise). -/
theorem bayes_mode_requires_cuda (p : IQParams) (ext : IQExt)
    (images : List Vec) (categories : List Nat) (imgF catF : Mat)
    (questions : Option (List (List Nat))) (tfr : ℚ) (trng prng : Rng)
    (hb : p.bayes = true) :
    encode_into_t p ext false imgF catF trng = Except.error PyErr.cudaError ∧
    encode_from_category p ext false images categories trng =
      Except.error PyErr.cudaError ∧
    predict_from_category p ext false images categories questions tfr trng prng =
      Except.error PyErr.cudaError ∧
    harnessBatchDevice false = Device.cpu ∧ harnessBatchDevice true = Device.gpu := by
  have he : ∀ (iF cF : Mat) (tr : Rng),
      encode_into_t p ext false iF cF tr = Except.error PyErr.cudaError := by
    intro iF cF tr
    unfold encode_into_t
    rw [hb]
    rfl
  have hc : encode_from_category p ext false images categories trng =
      Except.error PyErr.cudaError := by
    unfold encode_from_category
    simp [he]
  refine ⟨he imgF catF trng, hc, ?_, rfl, rfl⟩
  unfold predict_from_category
  simp [hc]

theorem bayes_mode_requires_cuda_witness :
    encode_into_t pB extC false [[1]] [[1]] 0 = Except.error PyErr.cudaError ∧
    encode_from_category pB extC false [[1]] [0] 0 =
      Except.error PyErr.cudaError ∧
    predict_from_category pB extC false [[1]] [0] none 0 0 0 =
      Except.error PyErr.cudaError ∧
    harnessBatchDevice false = Device.cpu ∧ harnessBatchDevice true = Device.gpu :=
  bayes_mode_requires_cuda pB extC [[1]] [0] [[1]] [[1]] none 0 0 0 rfl

theorem predict_tokens_shape_aux (p : IQParams) (ext : IQExt) (cuda : Bool)
    (images : List Vec) (categories : List Nat)
    (questions : Option (List (List Nat))) (tfr : ℚ) (trng prng : Rng)
    (toks : List (List Nat)) (t1 p1 : Rng)
    (hml : 0 < p.maxLen) (hlen : images.length = categories.length)
    (h : predict_from_category p ext cuda images categories questions tfr trng prng
      = Except.ok (toks, t1, p1)) :
    toks.length = images.length ∧ ∀ row ∈ toks, row.length = p.maxLen := by
  cases he : encode_from_category p ext cuda images categories trng with
  | error e =>
    unfold predict_from_category at h
    rw [he] at h
    simp at h
  | ok r =>
    have hzlen : r.2.1.length = images.length := by
      simp only [encode_from_category] at he
      cases he2 : encode_into_t p ext cuda (images.map ext.encoder_cnn)
          (categories.map (fun c => ext.category_encoder (ext.category_embedding c)))
          trng with
      | error e => rw [he2] at he; simp at he
      | ok r2 =>
        rw [he2] at he
        simp only [Except.ok.injEq] at he
        subst he
        have hz := encode_into_t_zs_length p ext cuda (images.map ext.encoder_cnn)
          (categories.map (fun c => ext.category_encoder (ext.category_embedding c)))
          trng r2.1 r2.2.1 r2.2.2.1 r2.2.2.2 he2
        simpa [hlen] using hz
    unfold predict_from_category at h
    rw [he] at h
    simp only [Except.ok.injEq, Prod.mk.injEq] at h
    obtain ⟨h1, -, -⟩ := h
    rw [← h1]
    have hshape := decode_questions_tokens_shape p ext (some r.1) r.2.1 questions
      tfr prng hml
    rw [hzlen] at hshape
    exact hshape

/-- Evaluation of the prediction pipeline on the concrete fixture, used to
discharge the hypotheses of the witnesses below. -/
theorem predictC_eval :
    predict_from_category pC extC false [[1]] [0] none 0 0 0 =
      Except.ok ([[0]], 0, 0) := by
  norm_num [predict_from_category, encode_from_category, encode_into_t,
    reparameterize_prev, threadMap, decode_questions, decoderRNN, decodeExample,
    parse_outputs_to_tokens, perExampleInit, decode_init, hiddenLayers,
    cellOrHidden, questionFor, linearMap, dotQ, clampQ, addVec, argmaxIdx,
    argmaxIdxAux, extC, pC, min_def, max_def, List.range_succ]

/-- C1: for every input batch, IQ.forward fails with NameError before
producing any output (line 330 references mus and logvars, which no
computation in its scope defines), while the encode-then-decode paths used by
the evaluation harness — encode_from_category and predict_from_category —
succeed on the same inputs (here in standard-normal mode, where no accelerator
is required). -/
theorem forward_name_error (p : IQParams) (ext : IQExt) (cuda : Bool)
    (images : List Vec) (answers : List (List Nat)) (categories : List Nat)
    (questions : Option (List (List Nat))) (tfr : ℚ) (trng prng : Rng)
    (hb : p.bayes = false) :
    forward p ext cuda images answers categories questions tfr trng prng =
      Except.error (PyErr.nameError "mus") ∧
    (∃ r, encode_from_category p ext cuda images categories trng = Except.ok r) ∧
    (∃ out, predict_from_category p ext cuda images categories none 0 trng prng =
      Except.ok out) :=
  ⟨rfl, encode_from_category_isOk p ext cuda images categories trng (Or.inl hb),
    predict_from_category_isOk p ext cuda images categories none 0 trng prng
      (Or.inl hb)⟩

theorem forward_name_error_witness :
    forward pC extC false [[1]] [[1]] [0] none 0 0 0 =
      Except.error (PyErr.nameError "mus") ∧
    (∃ r, encode_from_category pC extC false [[1]] [0] 0 = Except.ok r) ∧
    (∃ out, predict_from_category pC extC false [[1]] [0] none 0 0 0 =
      Except.ok out) :=
  forward_name_error pC extC false [[1]] [[1]] [0] none 0 0 0 rfl

/-- C3, counterexample: the answer-conditioned prediction operation the
harness invokes does not exist on the model — predict_from_answer is not among
the methods of class IQ — so on a concrete well-formed batch the from-answer
mode fails with AttributeError instead of succeeding. -/
theorem predict_from_answer_missing :
    iqMethodNames.contains "predict_from_answer" = false ∧
    iqGenMethodTable.lookup "predict_from_answer" = none ∧
    evalBatch pC extC false true bC 0 0 =
      Except.error (PyErr.attributeError "predict_from_answer") :=
  ⟨rfl, rfl, rfl⟩

/-- C3, amended: the harness has the two modes, but only the from-category
branch works: it returns a (batch, max_len) token matrix, while the
from-answer branch invokes predict_from_answer, which class IQ does not
define, so from-answer evaluation fails with AttributeError on every batch. -/
theorem evaluate_modes_amended (p : IQParams) (ext : IQExt) (cuda : Bool)
    (b : Batch) (trng prng : Rng)
    (hml : 0 < p.maxLen) (hlen : b.images.length = b.categories.length)
    (hb : p.bayes = false) :
    evalBatch p ext cuda true b trng prng =
      Except.error (PyErr.attributeError "predict_from_answer") ∧
    ∃ toks t1 p1, evalBatch p ext cuda false b trng prng = Except.ok (toks, t1, p1) ∧
      toks.length = b.images.length ∧ ∀ row ∈ toks, row.length = p.maxLen := by
  refine ⟨rfl, ?_⟩
  obtain ⟨out, hout⟩ := predict_from_category_isOk p ext cuda b.images b.categories
    none 0 trng prng (Or.inl hb)
  have heb : evalBatch p ext cuda false b trng prng =
      predict_from_category p ext cuda b.images b.categories none 0 trng prng := rfl
  have hshape := predict_tokens_shape_aux p ext cuda b.images b.categories none 0
    trng prng out.1 out.2.1 out.2.2 hml hlen hout
  exact ⟨out.1, out.2.1, out.2.2, by rw [heb]; exact hout, hshape.1, hshape.2⟩

theorem evaluate_modes_amended_witness :
    evalBatch pC extC false true bC 0 0 =
      Except.error (PyErr.attributeError "predict_from_answer") ∧
    ∃ toks t1 p1, evalBatch pC extC false false bC 0 0 = Except.ok (toks, t1, p1) ∧
      toks.length = bC.images.length ∧ ∀ row ∈ toks, row.length = pC.maxLen :=
  evaluate_modes_amended pC extC false bC 0 0 (by decide) rfl rfl

/-- C5: whenever the prediction path predict_from_category returns a token
matrix, its first dimension equals the input batch size and its second
dimension equals the configured maximum length (the batch is well-formed —
image and category batches are aligned — and the configured maximum length is
positive). -/
theorem predict_from_category_token_shape (p : IQParams) (ext : IQExt)
    (cuda : Bool) (images : List Vec) (categories : List Nat)
    (questions : Option (List (List Nat))) (tfr : ℚ) (trng prng : Rng)
    (toks : List (List Nat)) (t1 p1 : Rng)
    (hml : 0 < p.maxLen) (hlen : images.length = categories.length)
    (h : predict_from_category p ext cuda images categories questions tfr trng prng
      = Except.ok (toks, t1, p1)) :
    toks.length = images.length ∧ ∀ row ∈ toks, row.length = p.maxLen :=
  predict_tokens_shape_aux p ext cuda images categories questions tfr trng prng
    toks t1 p1 hml hlen h

theorem predict_from_category_token_shape_witness :
    ([[0]] : List (List Nat)).length = ([[1]] : List Vec).length ∧
    ∀ row ∈ ([[0]] : List (List Nat)), row.length = pC.maxLen :=
  predict_from_category_token_shape pC extC false [[1]] [0] none 0 0 0 [[0]] 0 0
    (by decide) rfl predictC_eval

theorem decoderRNN_fst_rng_irrel (ext : IQExt) (p : IQParams) (init : DecInit)
    (batch : Nat) (questions : Option (List (List Nat)))
    (h01 : ∀ s, 0 ≤ (ext.rand01 s).1) (r1 r2 : Rng) :
    (decoderRNN ext p init batch questions 0 r1).1 =
      (decoderRNN ext p init batch questions 0 r2).1 := by
  unfold decoderRNN
  have h := threadMap_fst_congr
    (fun i r => decodeExample ext 0 p.maxLen (perExampleInit init i) p.sosId
      (questionFor questions i) r)
    (fun a s1 s2 => decodeExample_fst_rng_irrel ext h01 p.maxLen
      (perExampleInit init a) p.sosId (questionFor questions a) s1 s2)
    (List.range batch) r1 r2
  simp only []
  rw [h]

theorem decode_questions_tokens_rng_irrel (p : IQParams) (ext : IQExt)
    (imf : Option Mat) (ts : Mat) (questions : Option (List (List Nat)))
    (h01 : ∀ s, 0 ≤ (ext.rand01 s).1) (r1 r2 : Rng) :
    (decode_questions p ext imf ts questions 0 r1).2.1 =
      (decode_questions p ext imf ts questions 0 r2).2.1 := by
  unfold decode_questions
  simp only []
  rw [decoderRNN_fst_rng_irrel ext p _ _ _ h01 r1 r2]

/-- C6: two invocations of predict_from_category with teacher_forcing_ratio 0,
identical inputs, identical parameters and the torch generator reset to the
same state yield identical token matrices — regardless of the state of
python's (unseeded) random generator, whose draws decide teacher forcing and
are never consulted at ratio 0. -/
theorem predict_from_category_deterministic (p : IQParams) (ext : IQExt)
    (cuda : Bool) (images : List Vec) (categories : List Nat) (trng py1 py2 : Rng)
    (h01 : ∀ s, 0 ≤ (ext.rand01 s).1) :
    (predict_from_category p ext cuda images categories none 0 trng py1).map
        (fun out => out.1) =
      (predict_from_category p ext cuda images categories none 0 trng py2).map
        (fun out => out.1) := by
  unfold predict_from_category
  cases he : encode_from_category p ext cuda images categories trng with
  | error e => rfl
  | ok r =>
    simp only [Except.map]
    rw [decode_questions_tokens_rng_irrel p ext (some r.1) r.2.1 none h01 py1 py2]

theorem predict_from_category_deterministic_witness :
    (predict_from_category pC extC false [[1]] [0] none 0 0 0).map
        (fun out => out.1) =
      (predict_from_category pC extC false [[1]] [0] none 0 0 1).map
        (fun out => out.1) :=
  predict_from_category_deterministic pC extC false [[1]] [0] 0 0 1
    (fun _ => le_refl 0)

/-- C8, counterexample: on a concrete nonempty evaluation pass entered with
torch's default autograd mode (tracking enabled), the harness leaves gradient
tracking enabled during the per-batch prediction computations — evaluate calls
vqg.eval() but never enters torch.no_grad() — so the claim that no gradient
tracking is performed is false; the training flag (dropout) is indeed off. -/
theorem evaluate_grad_tracking_counterexample :
    (evaluateHarness pC extC false true false [bC] 0 0).map
      (fun r => (r.gradDuring, r.trainingDuring)) = Except.ok (true, false) := by
  have hb : evalBatch pC extC false false bC 0 0 = Except.ok ([[0]], 0, 0) :=
    predictC_eval
  simp [evaluateHarness, evalLoop, hb, Except.map]

/-- C8, amended: during the evaluation pass the module's training flag is off
(dropout disabled) and the model's parameters are unchanged by the whole pass,
but gradient tracking is not disabled: the per-batch computations run in
whatever autograd mode the caller left globally (enabled by torch default),
since evaluate never enters a no_grad context. -/
theorem evaluate_inference_mode (p : IQParams) (ext : IQExt)
    (cuda gradIn fromAnswer : Bool) (batches : List Batch) (trng prng : Rng)
    (r : EvalResult)
    (h : evaluateHarness p ext cuda gradIn fromAnswer batches trng prng =
      Except.ok r) :
    r.trainingDuring = false ∧ r.paramsAfter = p ∧ r.gradDuring = gradIn := by
  unfold evaluateHarness at h
  cases hl : evalLoop p ext cuda fromAnswer batches trng prng ([], []) with
  | error e => rw [hl] at h; simp at h
  | ok acc =>
    rw [hl] at h
    simp only [Except.ok.injEq] at h
    rw [← h]
    exact ⟨rfl, rfl, rfl⟩

theorem evaluate_inference_mode_witness :
    ({ preds := [], gts := [], trainingDuring := false, gradDuring := true,
       paramsAfter := pC } : EvalResult).trainingDuring = false ∧
    ({ preds := [], gts := [], trainingDuring := false, gradDuring := true,
       paramsAfter := pC } : EvalResult).paramsAfter = pC ∧
    ({ preds := [], gts := [], trainingDuring := false, gradDuring := true,
       paramsAfter := pC } : EvalResult).gradDuring = true :=
  evaluate_inference_mode pC extC false true false [] 0 0 _ rfl
